import Mathlib

/-!
Verification development for the Global Tag Throttler
(`fdbserver/GlobalTagThrottler.actor.cpp`).

The controller state and every derivation function below are shallow
embeddings of the members of `GlobalTagThrottlerImpl`.  C++ `double`
arithmetic is modelled over `ℚ` (no claim in this development depends on
floating-point rounding), `Optional<T>` over `Option`, and the three
`std::unordered_map` tables over association lists so that iteration order
is explicit.  Definitions whose C++ source lives outside the audited
sources (`fdbrpc/Smoother.h`, the `fdbclient` quota/limit value types) are
modelled from the specification and say so in their doc comments.
-/

namespace GTT

/-- Transaction tags are opaque byte strings (`TransactionTag`); modelled as
`String`. -/
abbrev TransactionTag := String

/-- Storage-server identifiers are opaque (`UID`); modelled as `ℕ`. -/
abbrev UID := Nat

/-- `GlobalTagThrottlerImpl::OpType` (line 66). -/
inductive OpType where
  | read
  | write
deriving DecidableEq

/-- `GlobalTagThrottlerImpl::LimitType` (line 65). -/
inductive LimitType where
  | reserved
  | total
deriving DecidableEq

/-- The two server knobs the throttler reads:
`GLOBAL_TAG_THROTTLING_FOLDING_TIME` and `GLOBAL_TAG_THROTTLING_MIN_RATE`.
Their values live outside the audited sources, so they are parameters. -/
structure Knobs where
  foldingTime : ℚ
  minRate : ℚ
deriving DecidableEq

/-- Modelled from the spec: §4.A "Smoothed counter" (the implementation,
`fdbrpc/Smoother.h`, is not part of the audited sources).  A smoother holds
a tracked level (`total`) and a smoothed projection (`estimate`) that
relaxes toward the level over the folding time.  Every claim in this
development reads a smoother at a single instant, so the time-driven
relaxation is not modelled: at an instant, `set_total` overwrites the
level, `add_delta` accumulates into it, `smooth_total` reads the smoothed
projection, `get_total` reads the raw level, and `smooth_rate` is the
smoothed derivative `(total - estimate) / foldingTime`. -/
structure Smoother where
  total : ℚ
  estimate : ℚ
deriving DecidableEq

/-- A freshly constructed smoother tracks level `0`. -/
def Smoother.init : Smoother := ⟨0, 0⟩

/-- `Smoother::setTotal` at an instant: overwrite the tracked level. -/
def Smoother.setTotal (sm : Smoother) (x : ℚ) : Smoother := ⟨x, sm.estimate⟩

/-- `Smoother::addDelta` at an instant: accumulate into the tracked level. -/
def Smoother.addDelta (sm : Smoother) (d : ℚ) : Smoother := ⟨sm.total + d, sm.estimate⟩

/-- `Smoother::smoothTotal` at an instant. -/
def Smoother.smoothTotal (sm : Smoother) : ℚ := sm.estimate

/-- `Smoother::getTotal`. -/
def Smoother.getTotal (sm : Smoother) : ℚ := sm.total

/-- `Smoother::smoothRate` at an instant. -/
def Smoother.smoothRate (sm : Smoother) (k : Knobs) : ℚ :=
  (sm.total - sm.estimate) / k.foldingTime

/-- Modelled from the spec: §3 "TagQuota" (the implementation,
`ThrottleApi::TagQuotaValue` in `fdbclient`, is not part of the audited
sources).  Four scalars in cost-units per second; field names follow the
uses in `GlobalTagThrottler.actor.cpp` (lines 246-248, 336). -/
structure TagQuotaValue where
  totalReadQuota : ℚ
  totalWriteQuota : ℚ
  reservedReadQuota : ℚ
  reservedWriteQuota : ℚ
deriving DecidableEq

/-- Modelled from the spec: §6 client-rate feed (the implementation,
`ClientTagThrottleLimits` in `fdbclient`, is not part of the audited
sources).  Carries a TPS value; the constant `NO_EXPIRATION` marker
attached at line 137 carries no information and is omitted. -/
structure ClientTagThrottleLimits where
  tpsRate : ℚ
deriving DecidableEq

/-- `GlobalTagThrottlerImpl::ThroughputCounters` (lines 78-107): one
read-cost and one write-cost smoother per (server, tag). -/
structure ThroughputCounters where
  readCost : Smoother
  writeCost : Smoother
deriving DecidableEq

/-- `ThroughputCounters::getCost` (lines 100-106). -/
def ThroughputCounters.getCost (tc : ThroughputCounters) (opType : OpType) : ℚ :=
  match opType with
  | .read => tc.readCost.smoothTotal
  | .write => tc.writeCost.smoothTotal

/-- `ThroughputCounters::updateCost` (lines 88-98), keeping only the state
update (the returned rate difference is unused by the audited callers). -/
def ThroughputCounters.updateCost (tc : ThroughputCounters) (newCost : ℚ)
    (opType : OpType) : ThroughputCounters :=
  match opType with
  | .read => { tc with readCost := tc.readCost.setTotal newCost }
  | .write => { tc with writeCost := tc.writeCost.setTotal newCost }

/-- A freshly constructed `ThroughputCounters` (line 83). -/
def ThroughputCounters.init : ThroughputCounters := ⟨Smoother.init, Smoother.init⟩

/-- `GlobalTagThrottlerImpl::PerTagStatistics` (lines 110-142). -/
structure PerTagStatistics where
  quota : Option TagQuotaValue
  transactionCounter : Smoother
  perClientRate : Smoother
deriving DecidableEq

/-- A freshly constructed `PerTagStatistics` (lines 116-118): no quota,
zeroed smoothers. -/
def PerTagStatistics.init : PerTagStatistics := ⟨none, Smoother.init, Smoother.init⟩

/-- `PerTagStatistics::updateAndGetPerClientLimit` (lines 130-141). -/
def PerTagStatistics.updateAndGetPerClientLimit (stats : PerTagStatistics) (k : Knobs)
    (targetCost : Option ℚ) : Option ClientTagThrottleLimits × PerTagStatistics :=
  match targetCost with
  | some tc =>
    if 0 < stats.transactionCounter.smoothRate k then
      let newPerClientRate := max k.minRate
        (min tc ((tc / stats.transactionCounter.smoothRate k) * stats.perClientRate.smoothTotal))
      let stats' := { stats with perClientRate := stats.perClientRate.setTotal newPerClientRate }
      (some ⟨stats'.perClientRate.getTotal⟩, stats')
    else
      (none, stats)
  | none => (none, stats)

/-! Association-list counterparts of the `std::unordered_map` operations the
source uses.  `lookupA` is `GlobalTagThrottlerImpl::get` (lines 68-76);
`updA` is `m[k]` followed by a mutation of the entry (default-inserting when
the key is absent, as `operator[]` does); `eraseA` is `m.erase(it)`. -/

/-- First-match lookup in an association list; `GlobalTagThrottlerImpl::get`
(lines 68-76). -/
def lookupA {α β : Type} [DecidableEq α] : List (α × β) → α → Option β
  | [], _ => none
  | (k, v) :: rest, key => if k = key then some v else lookupA rest key

/-- `m[key]` followed by mutating the entry with `f`: modifies the first
entry with the key in place, or default-inserts `f d` when absent. -/
def updA {α β : Type} [DecidableEq α] (m : List (α × β)) (key : α) (d : β)
    (f : β → β) : List (α × β) :=
  match m with
  | [] => [(key, f d)]
  | (k, v) :: rest => if k = key then (k, f v) :: rest else (k, v) :: updA rest key d f

/-- Erase the first entry with the given key. -/
def eraseA {α β : Type} [DecidableEq α] : List (α × β) → α → List (α × β)
  | [], _ => []
  | (k, v) :: rest, key => if k = key then rest else (k, v) :: eraseA rest key

/-- The mutable controller state of `GlobalTagThrottlerImpl`
(lines 146-150). -/
structure GlobalTagThrottlerState where
  throttledTagChangeId : ℕ
  throttlingRatios : List (UID × Option ℚ)
  tagStatistics : List (TransactionTag × PerTagStatistics)
  throughput : List (UID × List (TransactionTag × ThroughputCounters))
deriving DecidableEq

/-- The state of a freshly constructed controller (line 419). -/
def initState : GlobalTagThrottlerState := ⟨0, [], [], []⟩

/-- `getCurrentCost(UID, TransactionTag, OpType)` (lines 153-163): cost rate
for a tag on one storage server. -/
def getCurrentCostSSTag (s : GlobalTagThrottlerState) (storageServerId : UID)
    (tag : TransactionTag) (opType : OpType) : Option ℚ :=
  match lookupA s.throughput storageServerId with
  | none => none
  | some tagToThroughputCounters =>
    match lookupA tagToThroughputCounters tag with
    | none => none
    | some throughputCounter => some (throughputCounter.getCost opType)

/-- `getCurrentCost(UID, OpType)` (lines 166-176): cost rate on one storage
server summed across all tags. -/
def getCurrentCostSS (s : GlobalTagThrottlerState) (storageServerId : UID)
    (opType : OpType) : Option ℚ :=
  match lookupA s.throughput storageServerId with
  | none => none
  | some tagToPerTagThroughput =>
    some (tagToPerTagThroughput.foldl (fun result p => result + p.2.getCost opType) 0)

/-- `getCurrentCost(TransactionTag, OpType)` (lines 179-185): cost rate for a
tag summed across all storage servers. -/
def getCurrentCostTag (s : GlobalTagThrottlerState) (tag : TransactionTag)
    (opType : OpType) : ℚ :=
  s.throughput.foldl (fun result p => result + ((getCurrentCostSSTag s p.1 tag opType).getD 0)) 0

/-- `getAverageTransactionCost(TransactionTag, UID, OpType)` (lines 189-204). -/
def getAverageTransactionCostSSTag (s : GlobalTagThrottlerState) (k : Knobs)
    (tag : TransactionTag) (storageServerId : UID) (opType : OpType) : Option ℚ :=
  match getCurrentCostSSTag s storageServerId tag opType with
  | none => none
  | some cost =>
    match lookupA s.tagStatistics tag with
    | none => none
    | some stats =>
      let transactionRate := stats.transactionCounter.smoothRate k
      if transactionRate = 0 then none else some (cost / transactionRate)

/-- `getAverageTransactionCost(TransactionTag, OpType)` (lines 207-219). -/
def getAverageTransactionCostTag (s : GlobalTagThrottlerState) (k : Knobs)
    (tag : TransactionTag) (opType : OpType) : Option ℚ :=
  let cost := getCurrentCostTag s tag opType
  match lookupA s.tagStatistics tag with
  | none => none
  | some stats =>
    let transactionRate := stats.transactionCounter.smoothRate k
    if transactionRate = 0 then none else some (cost / transactionRate)

/-- `getTagsAffectingStorageServer` (lines 222-234). -/
def getTagsAffectingStorageServer (s : GlobalTagThrottlerState)
    (storageServerId : UID) : List TransactionTag :=
  match lookupA s.throughput storageServerId with
  | none => []
  | some tagToThroughputCounters => tagToThroughputCounters.map Prod.fst

/-- `getQuota` (lines 236-250). -/
def getQuota (s : GlobalTagThrottlerState) (tag : TransactionTag) (opType : OpType)
    (limitType : LimitType) : Option ℚ :=
  match lookupA s.tagStatistics tag with
  | none => none
  | some stats =>
    match stats.quota with
    | none => none
    | some quota =>
      match limitType, opType with
      | .total, .read => some quota.totalReadQuota
      | .total, .write => some quota.totalWriteQuota
      | .reserved, .read => some quota.reservedReadQuota
      | .reserved, .write => some quota.reservedWriteQuota

/-- One iteration of the loop in `getQuotaRatio` (lines 258-264), updating
the accumulator `(sumQuota, tagQuota)`.  The comparison is
`tag.compare(tag) == 0` in the source — the outer tag compared against
itself, not against the iterated tag `t` — so it is always true and
`tagQuota` receives every iterated tag's quota in turn, ending at the last
one. -/
def quotaRatioStep (s : GlobalTagThrottlerState) (tag : TransactionTag)
    (opType : OpType) (acc : ℚ × ℚ) (t : TransactionTag) : ℚ × ℚ :=
  let tQuota := getQuota s t opType .total
  let sumQuota := acc.1 + tQuota.getD 0
  let tagQuota := if tag = tag then tQuota.getD 0 else acc.2
  (sumQuota, tagQuota)

/-- The accumulator `(sumQuota, tagQuota)` after the loop in `getQuotaRatio`
(lines 255-264). -/
def getQuotaRatioAcc (s : GlobalTagThrottlerState) (tag : TransactionTag)
    (storageServerId : UID) (opType : OpType) : ℚ × ℚ :=
  (getTagsAffectingStorageServer s storageServerId).foldl
    (quotaRatioStep s tag opType) (0, 0)

/-- `getQuotaRatio` (lines 254-270).  The trailing `ASSERT_GT(sumQuota, 0.0)`
is not part of the returned value; the division it guards is analysed in the
division-safety theorem. -/
def getQuotaRatio (s : GlobalTagThrottlerState) (tag : TransactionTag)
    (storageServerId : UID) (opType : OpType) : ℚ :=
  let acc := getQuotaRatioAcc s tag storageServerId opType
  if acc.2 = 0 then 0 else acc.2 / acc.1

/-- `getLimitingCost` (lines 274-281).  The guard at line 277 is
`!throttlingRatio.present() || currentCost.present() || !throttlingRatio.get().present()`
exactly as in the source (the middle clause is NOT negated).  In the branch
that survives the guard, `currentCost` is known to be absent, and line 280
evaluates `currentCost.get()` on that empty `Optional`, which aborts the
process; see `getLimitingCostCrashes`.  The model returns `none` for that
branch (no value is ever produced there). -/
def getLimitingCost (s : GlobalTagThrottlerState) (storageServerId : UID)
    (opType : OpType) : Option ℚ :=
  let throttlingRatio := lookupA s.throttlingRatios storageServerId
  let currentCost := getCurrentCostSS s storageServerId opType
  if throttlingRatio.isNone || currentCost.isSome || (throttlingRatio.getD none).isNone then
    none
  else
    none

/-- The states in which line 280 dereferences an empty `Optional` and aborts:
a published (engaged) throttling ratio for a server with no throughput
entry. -/
def getLimitingCostCrashes (s : GlobalTagThrottlerState) (storageServerId : UID)
    (opType : OpType) : Bool :=
  match lookupA s.throttlingRatios storageServerId, getCurrentCostSS s storageServerId opType with
  | some (some _), none => true
  | _, _ => false

/-- States in which no `getLimitingCost` evaluation can abort: every server
with an engaged published ratio has a throughput entry. -/
def noCrash (s : GlobalTagThrottlerState) : Bool :=
  s.throttlingRatios.all (fun p => p.2.isNone || (lookupA s.throughput p.1).isSome)

/-- `getLimitingTps(UID, TransactionTag, OpType)` (lines 284-294). -/
def getLimitingTpsSSTag (s : GlobalTagThrottlerState) (k : Knobs)
    (storageServerId : UID) (tag : TransactionTag) (opType : OpType) : Option ℚ :=
  let quotaRatio := getQuotaRatio s tag storageServerId opType
  match getLimitingCost s storageServerId opType,
        getAverageTransactionCostSSTag s k tag storageServerId opType with
  | some limitingCost, some averageTransactionCost =>
    some (limitingCost * quotaRatio / averageTransactionCost)
  | _, _ => none

/-- One step of the accumulator loop in `getLimitingTps(TransactionTag,
OpType)` (lines 301-305): when both the accumulator and the per-server
value are present the minimum is kept, otherwise the accumulator is
REPLACED by the per-server value (so an absent per-server value resets it). -/
def limitingFoldStep (result targetTpsForSS : Option ℚ) : Option ℚ :=
  match result, targetTpsForSS with
  | some r, some t => some (min r t)
  | _, _ => targetTpsForSS

/-- The whole accumulator loop of `getLimitingTps(TransactionTag, OpType)`
(lines 298-307), abstracted over the list of per-server values in
iteration order. -/
def limitingFold (vals : List (Option ℚ)) : Option ℚ :=
  vals.foldl limitingFoldStep none

/-- `getLimitingTps(TransactionTag, OpType)` (lines 297-308). -/
def getLimitingTpsTagOp (s : GlobalTagThrottlerState) (k : Knobs)
    (tag : TransactionTag) (opType : OpType) : Option ℚ :=
  limitingFold (s.throttlingRatios.map (fun p => getLimitingTpsSSTag s k p.1 tag opType))

/-- `getLimitingTps(TransactionTag)` (lines 310-320). -/
def getLimitingTpsTag (s : GlobalTagThrottlerState) (k : Knobs)
    (tag : TransactionTag) : Option ℚ :=
  match getLimitingTpsTagOp s k tag .read, getLimitingTpsTagOp s k tag .write with
  | some readLimitingTps, some writeLimitingTps => some (min readLimitingTps writeLimitingTps)
  | some readLimitingTps, none => some readLimitingTps
  | none, writeLimitingTps => writeLimitingTps

/-- `getDesiredTps(TransactionTag, OpType)` (lines 322-338). -/
def getDesiredTpsTagOp (s : GlobalTagThrottlerState) (k : Knobs)
    (tag : TransactionTag) (opType : OpType) : Option ℚ :=
  match getAverageTransactionCostTag s k tag opType with
  | none => none
  | some averageTransactionCost =>
    if averageTransactionCost = 0 then none
    else
      match lookupA s.tagStatistics tag with
      | none => none
      | some stats =>
        match stats.quota with
        | none => none
        | some quota =>
          let desiredCost := match opType with
            | .read => quota.totalReadQuota
            | .write => quota.totalWriteQuota
          some (desiredCost / averageTransactionCost)

/-- `getDesiredTps(TransactionTag)` (lines 340-350). -/
def getDesiredTpsTag (s : GlobalTagThrottlerState) (k : Knobs)
    (tag : TransactionTag) : Option ℚ :=
  match getDesiredTpsTagOp s k tag .read, getDesiredTpsTagOp s k tag .write with
  | some readDesiredTps, some writeDesiredTps => some (min readDesiredTps writeDesiredTps)
  | some readDesiredTps, none => some readDesiredTps
  | none, writeDesiredTps => writeDesiredTps

/-- `getReservedTps(TransactionTag, OpType)` (lines 352-360). -/
def getReservedTpsTagOp (s : GlobalTagThrottlerState) (k : Knobs)
    (tag : TransactionTag) (opType : OpType) : Option ℚ :=
  match getQuota s tag opType .reserved, getAverageTransactionCostTag s k tag opType with
  | some reservedCost, some averageTransactionCost =>
    if averageTransactionCost = 0 then none else some (reservedCost / averageTransactionCost)
  | _, _ => none

/-- `getReservedTps(TransactionTag)` (lines 362-372): note the combiner is
`max`, not `min`. -/
def getReservedTpsTag (s : GlobalTagThrottlerState) (k : Knobs)
    (tag : TransactionTag) : Option ℚ :=
  match getReservedTpsTagOp s k tag .read, getReservedTpsTagOp s k tag .write with
  | some readReservedTps, some writeReservedTps => some (max readReservedTps writeReservedTps)
  | some readReservedTps, none => some readReservedTps
  | none, writeReservedTps => writeReservedTps

/-- The list of tags `getClientRates` iterates over (line 425: the keys of
`tagStatistics`, in table order). -/
def trackedTags (s : GlobalTagThrottlerState) : List TransactionTag :=
  s.tagStatistics.map Prod.fst

/-- The map `getClientRates` returns (a
`PrioritizedTransactionTagMap<ClientTagThrottleLimits>`): the entries filed
under the `BATCH` priority key and those under `DEFAULT` (line 435 writes
both). -/
structure ClientRatesResult where
  batchRates : List (TransactionTag × ClientTagThrottleLimits)
  defaultRates : List (TransactionTag × ClientTagThrottleLimits)
deriving DecidableEq

/-- The empty returned map (`return {}`, line 431). -/
def emptyClientRates : ClientRatesResult := ⟨[], []⟩

/-- The loop of `getClientRates` (lines 425-438), over the snapshot of
tracked tags, threading the controller state (the loop mutates the
iterated tag's `perClientRate` smoother in place).  If any of the three
TPS values for a tag is absent the whole call returns the empty map with
the mutations made so far kept (line 431).  In the surviving branch the
source calls `perClientLimit.get()` (line 436); when that `Optional` is
empty the process aborts, modelled as the `none` result. -/
def clientRatesLoop (k : Knobs) :
    List TransactionTag → GlobalTagThrottlerState → ClientRatesResult →
    Option ClientRatesResult × GlobalTagThrottlerState
  | [], s, result => (some result, s)
  | tag :: rest, s, result =>
    match getLimitingTpsTag s k tag, getDesiredTpsTag s k tag, getReservedTpsTag s k tag with
    | some limitingTps, some desiredTps, some reservedTps =>
      let targetCost := max reservedTps (min limitingTps desiredTps)
      let stats := (lookupA s.tagStatistics tag).getD PerTagStatistics.init
      let pr := stats.updateAndGetPerClientLimit k (some targetCost)
      let s' := { s with tagStatistics := updA s.tagStatistics tag PerTagStatistics.init (fun _ => pr.2) }
      match pr.1 with
      | some perClientLimit =>
        clientRatesLoop k rest s'
          ⟨result.batchRates ++ [(tag, perClientLimit)],
           result.defaultRates ++ [(tag, perClientLimit)]⟩
      | none => (none, s')
    | _, _, _ => (some emptyClientRates, s)

/-- `getClientRates` (lines 423-440): the returned prioritized map (`none`
marks the aborting `perClientLimit.get()` path) together with the
controller state after the call. -/
def getClientRates (s : GlobalTagThrottlerState) (k : Knobs) :
    Option ClientRatesResult × GlobalTagThrottlerState :=
  clientRatesLoop k (trackedTags s) s ⟨[], []⟩

/-- `autoThrottleCount` (line 442): the number of tracked tags. -/
def autoThrottleCount (s : GlobalTagThrottlerState) : ℕ :=
  s.tagStatistics.length

/-- The inner loop of `removeUnseenTags` (lines 375-382), iterating over the
snapshot of keys and threading the table.  The condition at line 379 is
`tagStatistics.find(tag) == tagStatistics.end()` exactly as in the source —
it consults `tagStatistics` itself, not the `seenTags` parameter. -/
def removeUnseenTagsLoop :
    List TransactionTag → List (TransactionTag × PerTagStatistics) →
    List (TransactionTag × PerTagStatistics)
  | [], m => m
  | tag :: rest, m =>
    removeUnseenTagsLoop rest (if (lookupA m tag).isNone then eraseA m tag else m)

/-- `removeUnseenTags` (lines 374-383).  The `seenTags` argument is accepted
and, as in the source, never consulted. -/
def removeUnseenTags (m : List (TransactionTag × PerTagStatistics))
    (seenTags : List TransactionTag) : List (TransactionTag × PerTagStatistics) :=
  removeUnseenTagsLoop (m.map Prod.fst) m

/-- The quota assignments performed by one quota-watcher scan (lines
398-403): for each key-value pair read from the quota table, in scan order,
`tagStatistics[tag].setQuota(quota)`. -/
def applyQuotaScan (m : List (TransactionTag × PerTagStatistics))
    (scan : List (TransactionTag × TagQuotaValue)) :
    List (TransactionTag × PerTagStatistics) :=
  scan.foldl
    (fun acc kv => updA acc kv.1 PerTagStatistics.init (fun st => { st with quota := some kv.2 }))
    m

/-- One completed quota-watcher cycle of `monitorThrottlingChanges` (lines
395-405): apply the scanned quotas, run `removeUnseenTags` on the set of
scanned tags, and increment `throttledTagChangeId`. -/
def reconcileStep (s : GlobalTagThrottlerState)
    (scan : List (TransactionTag × TagQuotaValue)) : GlobalTagThrottlerState :=
  { s with
    tagStatistics := removeUnseenTags (applyQuotaScan s.tagStatistics scan) (scan.map Prod.fst),
    throttledTagChangeId := s.throttledTagChangeId + 1 }

/-- The operations that mutate a controller instance over its lifetime: the
public mutators (lines 421, 453-469), a `getClientRates` call (which
mutates per-client smoothers), and one completed quota-watcher scan. -/
inductive Command where
  | setQuota (tag : TransactionTag) (quota : TagQuotaValue)
  | removeQuota (tag : TransactionTag)
  | addRequests (tag : TransactionTag) (count : ℤ)
  | setThrottlingRatio (storageServerId : UID) (ratio : Option ℚ)
  | tryUpdateAutoThrottling (storageServerId : UID)
      (busiestReadTags busiestWriteTags : List (TransactionTag × ℚ))
  | getClientRates
  | reconcile (scan : List (TransactionTag × TagQuotaValue))

/-- The per-(server, tag) cost updates of `tryUpdateAutoThrottling`
(lines 453-461): `throughput[ss.id][tag].updateCost(rate, op)` for each
reported busy tag. -/
def applyBusyTags (m : List (UID × List (TransactionTag × ThroughputCounters)))
    (storageServerId : UID) (opType : OpType)
    (busyTags : List (TransactionTag × ℚ)) :
    List (UID × List (TransactionTag × ThroughputCounters)) :=
  busyTags.foldl
    (fun acc tr =>
      updA acc storageServerId []
        (fun tagMap => updA tagMap tr.1 ThroughputCounters.init (fun tc => tc.updateCost tr.2 opType)))
    m

/-- The state transition of one command, translated from the corresponding
member function bodies. -/
def step (k : Knobs) (s : GlobalTagThrottlerState) : Command → GlobalTagThrottlerState
  | .setQuota tag quota =>
    { s with tagStatistics := (updA s.tagStatistics tag PerTagStatistics.init
        (fun st => { st with quota := some quota })) }
  | .removeQuota tag =>
    { s with tagStatistics := (updA s.tagStatistics tag PerTagStatistics.init
        (fun st => { st with quota := none })) }
  | .addRequests tag count =>
    { s with tagStatistics := (updA s.tagStatistics tag PerTagStatistics.init
        (fun st => { st with transactionCounter := st.transactionCounter.addDelta (count : ℚ) })) }
  | .setThrottlingRatio storageServerId ratio =>
    { s with throttlingRatios :=
        (updA s.throttlingRatios storageServerId none (fun _ => ratio)) }
  | .tryUpdateAutoThrottling storageServerId busiestReadTags busiestWriteTags =>
    { s with throughput :=
        (applyBusyTags (applyBusyTags s.throughput storageServerId .read busiestReadTags)
          storageServerId .write busiestWriteTags) }
  | .getClientRates => (getClientRates s k).2
  | .reconcile scan => reconcileStep s scan

/-- A controller lifetime: a sequence of commands applied in order. -/
def run (k : Knobs) (s : GlobalTagThrottlerState) (cmds : List Command) :
    GlobalTagThrottlerState :=
  cmds.foldl (step k) s

/-! Definitions following the specification's words, used to compare the
source's computations against the spec for the refinement claims. -/

/-- Modelled from the spec: §4.C.3 item 2 — `quota_ratio(tag, server, op)` is
the tag's own total quota for the op divided by the sum of the total quotas
of the tags participating on the server, and `0` when the tag's own share is
zero. -/
def quotaRatioSpec (s : GlobalTagThrottlerState) (tag : TransactionTag)
    (storageServerId : UID) (opType : OpType) : ℚ :=
  let participating := getTagsAffectingStorageServer s storageServerId
  let sumQuota := participating.foldl (fun r t => r + (getQuota s t opType .total).getD 0) 0
  let tagQuota := (getQuota s tag opType .total).getD 0
  if tagQuota = 0 then 0 else tagQuota / sumQuota

/-- Modelled from the spec: §4.C.3 item 1 — `limiting_cost(server, op)` is
the published throttling ratio times the server's current summed cost when
both are present, absent otherwise. -/
def limitingCostSpec (s : GlobalTagThrottlerState) (storageServerId : UID)
    (opType : OpType) : Option ℚ :=
  match lookupA s.throttlingRatios storageServerId, getCurrentCostSS s storageServerId opType with
  | some (some ratio), some currentCost => some (ratio * currentCost)
  | _, _ => none

/-- Modelled from the spec: the minimum over the present values of a family,
with absent values ignored; absent only when every value is absent. -/
def minOverPresent (vals : List (Option ℚ)) : Option ℚ :=
  vals.foldl
    (fun acc v =>
      match acc, v with
      | some a, some b => some (min a b)
      | some a, none => some a
      | none, w => w)
    none

/-- The per-tag publish computation of one `getClientRates` iteration
(lines 427-436): given the three TPS values computed for the tag, combine
them into the target (line 433) and run the per-client limit update
(lines 130-141); absent when any of the three is absent. -/
def perTagPublish (k : Knobs) (stats : PerTagStatistics)
    (limitingTps desiredTps reservedTps : Option ℚ) :
    Option ClientTagThrottleLimits × PerTagStatistics :=
  match limitingTps, desiredTps, reservedTps with
  | some limiting, some desired, some reserved =>
    stats.updateAndGetPerClientLimit k (some (max reserved (min limiting desired)))
  | _, _, _ => (none, stats)

/-- Whether a tracked tag's limit is absent in the sense of lines 427-431:
its limiting, desired, or reserved TPS is absent. -/
def tagLimitMissing (s : GlobalTagThrottlerState) (k : Knobs)
    (tag : TransactionTag) : Bool :=
  (getLimitingTpsTag s k tag).isNone || (getDesiredTpsTag s k tag).isNone ||
    (getReservedTpsTag s k tag).isNone

/-- All four fields of a stored quota are non-negative. -/
def quotaFieldsNonneg : Option TagQuotaValue → Bool
  | none => true
  | some q =>
    decide (0 ≤ q.totalReadQuota) && decide (0 ≤ q.totalWriteQuota) &&
      decide (0 ≤ q.reservedReadQuota) && decide (0 ≤ q.reservedWriteQuota)

/-- Well-formed quota tables: every stored quota field is non-negative
(spec §3: the four `TagQuota` scalars are non-negative). -/
def quotasNonneg (s : GlobalTagThrottlerState) : Bool :=
  s.tagStatistics.all (fun p => quotaFieldsNonneg p.2.quota)

/-- A concrete state exercising the quota-ratio computation: one storage
server (id 0) on which the tags "a" and "b" both participate; tag "a" has
total read quota 100 and tag "b" has total read quota 50. -/
def sQuotaRatio : GlobalTagThrottlerState :=
  ⟨0, [],
   [("a", ⟨some ⟨100, 0, 0, 0⟩, Smoother.init, Smoother.init⟩),
    ("b", ⟨some ⟨50, 0, 0, 0⟩, Smoother.init, Smoother.init⟩)],
   [(0, [("a", ThroughputCounters.init), ("b", ThroughputCounters.init)])]⟩

/-- A concrete state exercising the limiting-cost computation: storage
server 0 has a published (engaged) throttling ratio of 1/2 and a current
summed read cost of 100 (one tag with smoothed read cost 100). -/
def sLimitingCost : GlobalTagThrottlerState :=
  ⟨0, [(0, some (1 / 2))], [],
   [(0, [("a", ⟨⟨100, 100⟩, Smoother.init⟩)])]⟩

/-- A concrete state with one tracked tag and no telemetry or health data. -/
def sOneTag : GlobalTagThrottlerState :=
  ⟨0, [], [("a", PerTagStatistics.init)], []⟩

/-! Helper lemmas about the association-list operations. -/

theorem lookupA_mem {α β : Type} [DecidableEq α] :
    ∀ {m : List (α × β)} {key : α} {v : β}, lookupA m key = some v → (key, v) ∈ m
  | [], _, _, h => by simp [lookupA] at h
  | (k, w) :: rest, key, v, h => by
    by_cases hk : k = key
    · subst hk
      simp [lookupA] at h
      subst h
      exact List.mem_cons_self _ _
    · simp only [lookupA, if_neg hk] at h
      exact List.mem_cons_of_mem _ (lookupA_mem h)

theorem lookupA_isSome_of_mem_keys {α β : Type} [DecidableEq α] :
    ∀ {m : List (α × β)} {key : α}, key ∈ m.map Prod.fst → (lookupA m key).isSome = true
  | [], _, h => by simp at h
  | (k, w) :: rest, key, h => by
    by_cases hk : k = key
    · simp [lookupA, hk]
    · simp only [List.map_cons, List.mem_cons] at h
      rcases h with h | h
      · exact absurd h.symm hk
      · simp [lookupA, hk, lookupA_isSome_of_mem_keys h]

theorem mem_keys_updA {α β : Type} [DecidableEq α] {d : β} {f : β → β} :
    ∀ {m : List (α × β)} {t key : α}, t ∈ m.map Prod.fst →
      t ∈ (updA m key d f).map Prod.fst
  | [], _, _, h => by simp at h
  | (k, w) :: rest, t, key, h => by
    by_cases hk : k = key
    · simpa [updA, hk] using h
    · simp only [List.map_cons, List.mem_cons] at h
      rcases h with h | h
      · simp [updA, hk, h]
      · simp only [updA, if_neg hk, List.map_cons, List.mem_cons]
        exact Or.inr (mem_keys_updA h)

theorem lookupA_updA_of_none {α β : Type} [DecidableEq α] {d : β} {f : β → β} :
    ∀ {m : List (α × β)} {key : α}, lookupA m key = none →
      lookupA (updA m key d f) key = some (f d)
  | [], key, _ => by simp [updA, lookupA]
  | (k, w) :: rest, key, h => by
    by_cases hk : k = key
    · simp [lookupA, hk] at h
    · simp only [lookupA, if_neg hk] at h
      simp only [updA, if_neg hk, lookupA, if_neg hk]
      exact lookupA_updA_of_none h

theorem length_updA_of_none {α β : Type} [DecidableEq α] {d : β} {f : β → β} :
    ∀ {m : List (α × β)} {key : α}, lookupA m key = none →
      (updA m key d f).length = m.length + 1
  | [], key, _ => by simp [updA]
  | (k, w) :: rest, key, h => by
    by_cases hk : k = key
    · simp [lookupA, hk] at h
    · simp only [lookupA, if_neg hk] at h
      simp only [updA, if_neg hk, List.length_cons, length_updA_of_none h]

/-! Helper lemmas about the throttler's derivations. -/

theorem removeUnseenTagsLoop_id :
    ∀ (keys : List TransactionTag) (m : List (TransactionTag × PerTagStatistics)),
      (∀ t ∈ keys, (lookupA m t).isSome = true) → removeUnseenTagsLoop keys m = m
  | [], _, _ => rfl
  | tag :: rest, m, h => by
    have h1 : (lookupA m tag).isSome = true := h tag (List.mem_cons_self _ _)
    have h2 : (lookupA m tag).isNone = false := by
      cases hx : lookupA m tag <;> simp [hx] at h1 ⊢
    simp only [removeUnseenTagsLoop, h2, Bool.false_eq_true, if_false]
    exact removeUnseenTagsLoop_id rest m (fun t ht => h t (List.mem_cons_of_mem _ ht))

/-- `removeUnseenTags` never removes anything: every key it examines is, by
construction, a key of the very table the condition at line 379 consults. -/
theorem removeUnseenTags_id (m : List (TransactionTag × PerTagStatistics))
    (seenTags : List TransactionTag) : removeUnseenTags m seenTags = m :=
  removeUnseenTagsLoop_id _ m (fun _ ht => lookupA_isSome_of_mem_keys ht)

/-- `getLimitingCost` never produces a value: the guard at line 277 rejects
every state in which the inputs are present, and the surviving branch
dereferences an empty `Optional`. -/
theorem getLimitingCost_eq_none (s : GlobalTagThrottlerState) (storageServerId : UID)
    (opType : OpType) : getLimitingCost s storageServerId opType = none := by
  simp [getLimitingCost]

theorem getLimitingTpsSSTag_eq_none (s : GlobalTagThrottlerState) (k : Knobs)
    (storageServerId : UID) (tag : TransactionTag) (opType : OpType) :
    getLimitingTpsSSTag s k storageServerId tag opType = none := by
  unfold getLimitingTpsSSTag
  rw [getLimitingCost_eq_none]

theorem limitingFold_all_none :
    ∀ {vals : List (Option ℚ)}, (∀ v ∈ vals, v = none) → limitingFold vals = none
  | [], _ => rfl
  | v :: rest, h => by
    have hv : v = none := h v (List.mem_cons_self _ _)
    show List.foldl limitingFoldStep (limitingFoldStep none v) rest = none
    rw [hv]
    exact limitingFold_all_none (fun w hw => h w (List.mem_cons_of_mem _ hw))

theorem getLimitingTpsTagOp_eq_none (s : GlobalTagThrottlerState) (k : Knobs)
    (tag : TransactionTag) (opType : OpType) :
    getLimitingTpsTagOp s k tag opType = none := by
  unfold getLimitingTpsTagOp
  apply limitingFold_all_none
  intro v hv
  obtain ⟨p, _, rfl⟩ := List.mem_map.1 hv
  exact getLimitingTpsSSTag_eq_none s k p.1 tag opType

theorem getLimitingTpsTag_eq_none (s : GlobalTagThrottlerState) (k : Knobs)
    (tag : TransactionTag) : getLimitingTpsTag s k tag = none := by
  unfold getLimitingTpsTag
  rw [getLimitingTpsTagOp_eq_none, getLimitingTpsTagOp_eq_none]

theorem clientRatesLoop_cons_missing (k : Knobs) (tag : TransactionTag)
    (rest : List TransactionTag) (s : GlobalTagThrottlerState)
    (result : ClientRatesResult) (h : getLimitingTpsTag s k tag = none) :
    clientRatesLoop k (tag :: rest) s result = (some emptyClientRates, s) := by
  unfold clientRatesLoop
  rw [h]

/-- Every `getClientRates` call returns the empty map and leaves the state
unchanged: the limiting TPS is absent for every tag (a consequence of the
`getLimitingCost` guard), so the first iteration takes the `return {}`
path. -/
theorem getClientRates_eval (s : GlobalTagThrottlerState) (k : Knobs) :
    getClientRates s k = (some emptyClientRates, s) := by
  unfold getClientRates trackedTags
  cases hm : s.tagStatistics with
  | nil => rfl
  | cons p rest =>
    simp only [List.map_cons]
    exact clientRatesLoop_cons_missing k p.1 _ s _ (getLimitingTpsTag_eq_none s k p.1)

theorem getQuota_getD_nonneg {s : GlobalTagThrottlerState} (hq : quotasNonneg s = true)
    (tag : TransactionTag) (opType : OpType) (limitType : LimitType) :
    0 ≤ (getQuota s tag opType limitType).getD 0 := by
  unfold getQuota
  cases hx : lookupA s.tagStatistics tag with
  | none => simp
  | some stats =>
    cases hqt : stats.quota with
    | none => simp [hqt]
    | some q =>
      have hall := (List.all_eq_true.1 hq) (tag, stats) (lookupA_mem hx)
      rw [show (tag, stats).2 = stats from rfl, hqt] at hall
      simp only [quotaFieldsNonneg, Bool.and_eq_true, decide_eq_true_eq] at hall
      obtain ⟨⟨⟨h1, h2⟩, h3⟩, h4⟩ := hall
      cases limitType <;> cases opType <;> simp [hqt, h1, h2, h3, h4]

theorem quotaRatioAccLoop_inv {s : GlobalTagThrottlerState} (hq : quotasNonneg s = true)
    (tag : TransactionTag) (opType : OpType) :
    ∀ (tags : List TransactionTag) (a : ℚ × ℚ), 0 ≤ a.1 → 0 ≤ a.2 → a.2 ≤ a.1 →
      0 ≤ (tags.foldl (quotaRatioStep s tag opType) a).1 ∧
        0 ≤ (tags.foldl (quotaRatioStep s tag opType) a).2 ∧
        (tags.foldl (quotaRatioStep s tag opType) a).2 ≤
          (tags.foldl (quotaRatioStep s tag opType) a).1
    := by
  intro tags
  induction tags with
  | nil => intro a h1 h2 h3; exact ⟨h1, h2, h3⟩
  | cons t rest ih =>
    intro a h1 h2 h3
    have hqt : 0 ≤ (getQuota s t opType .total).getD 0 := getQuota_getD_nonneg hq t opType .total
    have hstep : quotaRatioStep s tag opType a t =
        (a.1 + (getQuota s t opType .total).getD 0, (getQuota s t opType .total).getD 0) := by
      simp [quotaRatioStep]
    rw [List.foldl_cons, hstep]
    exact ih _ (add_nonneg h1 hqt) hqt (le_add_of_nonneg_left h1)

/-- The invariant behind `ASSERT_GT(sumQuota, 0.0)` at line 268: with
non-negative quotas, whenever the loop's `tagQuota` is nonzero the summed
quota is strictly positive, so the division at line 269 has a nonzero
divisor. -/
theorem quotaRatioAcc_sum_pos {s : GlobalTagThrottlerState} (hq : quotasNonneg s = true)
    (tag : TransactionTag) (storageServerId : UID) (opType : OpType)
    (h : (getQuotaRatioAcc s tag storageServerId opType).2 ≠ 0) :
    0 < (getQuotaRatioAcc s tag storageServerId opType).1 := by
  obtain ⟨h1, h2, h3⟩ := quotaRatioAccLoop_inv hq tag opType
    (getTagsAffectingStorageServer s storageServerId) (0, 0) le_rfl le_rfl le_rfl
  have h2' : 0 < (getQuotaRatioAcc s tag storageServerId opType).2 := lt_of_le_of_ne h2 (Ne.symm h)
  exact lt_of_lt_of_le h2' h3

theorem mem_keys_applyQuotaScan :
    ∀ (scan : List (TransactionTag × TagQuotaValue))
      (m : List (TransactionTag × PerTagStatistics)) {t : TransactionTag},
      t ∈ m.map Prod.fst → t ∈ (applyQuotaScan m scan).map Prod.fst
  | [], _, _, h => h
  | kv :: rest, m, t, h => mem_keys_applyQuotaScan rest _ (mem_keys_updA h)

/-- No command ever removes a tracked tag: the three per-tag mutators only
insert or modify, `removeUnseenTags` is a no-op, and the other commands do
not touch `tagStatistics`. -/
theorem mem_trackedTags_step (k : Knobs) (s : GlobalTagThrottlerState)
    (cmd : Command) {t : TransactionTag} (h : t ∈ trackedTags s) :
    t ∈ trackedTags (step k s cmd) := by
  cases cmd with
  | setQuota tag q => exact mem_keys_updA h
  | removeQuota tag => exact mem_keys_updA h
  | addRequests tag n => exact mem_keys_updA h
  | setThrottlingRatio ss r => exact h
  | tryUpdateAutoThrottling ss a b => exact h
  | getClientRates =>
    show t ∈ trackedTags (getClientRates s k).2
    rw [getClientRates_eval]
    exact h
  | reconcile scan =>
    show t ∈ (removeUnseenTags (applyQuotaScan s.tagStatistics scan)
      (scan.map Prod.fst)).map Prod.fst
    rw [removeUnseenTags_id]
    exact mem_keys_applyQuotaScan scan _ h

theorem mem_keys_of_lookupA {α β : Type} [DecidableEq α] {m : List (α × β)}
    {key : α} {v : β} (h : lookupA m key = some v) : key ∈ m.map Prod.fst :=
  List.mem_map_of_mem Prod.fst (lookupA_mem h)

theorem limitingFoldStep_none_right (acc : Option ℚ) :
    limitingFoldStep acc none = none := by
  cases acc <;> rfl

theorem limitingFoldAux_eq_none_iff :
    ∀ (vals : List (Option ℚ)) (acc : Option ℚ), vals ≠ [] →
      (List.foldl limitingFoldStep acc vals = none ↔ vals.getLast? = some none)
  | [], _, h => absurd rfl h
  | [v], acc, _ => by
    cases v with
    | none => simp [limitingFoldStep_none_right]
    | some t => cases acc <;> simp [limitingFoldStep]
  | v :: w :: rest, acc, _ => by
    rw [List.foldl_cons, List.getLast?_cons_cons]
    exact limitingFoldAux_eq_none_iff (w :: rest) _ (by simp)

/-- The accumulator loop of lines 298-307 yields an absent aggregate exactly
when the server list is empty or the LAST per-server value is absent: an
absent value resets the accumulator instead of being ignored. -/
theorem limitingFold_eq_none_iff (vals : List (Option ℚ)) :
    limitingFold vals = none ↔ vals = [] ∨ vals.getLast? = some none := by
  cases vals with
  | nil => simp [limitingFold]
  | cons v rest =>
    rw [limitingFold, limitingFoldAux_eq_none_iff (v :: rest) none (by simp)]
    simp

/-- An absent per-server value wipes everything accumulated before it: the
aggregation of any list with an absent value in the middle equals the
aggregation of the suffix after that value. -/
theorem limitingFold_reset (vals more : List (Option ℚ)) :
    limitingFold (vals ++ none :: more) = limitingFold more := by
  unfold limitingFold
  rw [List.foldl_append, List.foldl_cons, limitingFoldStep_none_right]

theorem updateAndGetPerClientLimit_eq_some {stats : PerTagStatistics} {k : Knobs}
    {tc : ℚ} {p : ClientTagThrottleLimits}
    (h : (stats.updateAndGetPerClientLimit k (some tc)).1 = some p) :
    0 < stats.transactionCounter.smoothRate k ∧
      p.tpsRate = max k.minRate (min tc
        (tc / stats.transactionCounter.smoothRate k * stats.perClientRate.smoothTotal)) := by
  simp only [PerTagStatistics.updateAndGetPerClientLimit] at h
  by_cases hr : 0 < stats.transactionCounter.smoothRate k
  · refine ⟨hr, ?_⟩
    rw [if_pos hr] at h
    have h2 := Option.some.inj h
    rw [← h2]
    rfl
  · rw [if_neg hr] at h
    exact absurd h (by simp)

theorem getAverageTransactionCostTag_rate_zero {s : GlobalTagThrottlerState}
    {k : Knobs} {tag : TransactionTag} {stats : PerTagStatistics}
    (hst : lookupA s.tagStatistics tag = some stats)
    (hrate : stats.transactionCounter.smoothRate k = 0) (opType : OpType) :
    getAverageTransactionCostTag s k tag opType = none := by
  unfold getAverageTransactionCostTag
  rw [hst]
  simp [hrate]

theorem getAverageTransactionCostSSTag_rate_zero {s : GlobalTagThrottlerState}
    {k : Knobs} {tag : TransactionTag} {stats : PerTagStatistics}
    (hst : lookupA s.tagStatistics tag = some stats)
    (hrate : stats.transactionCounter.smoothRate k = 0)
    (storageServerId : UID) (opType : OpType) :
    getAverageTransactionCostSSTag s k tag storageServerId opType = none := by
  unfold getAverageTransactionCostSSTag
  cases getCurrentCostSSTag s storageServerId tag opType with
  | none => rfl
  | some c =>
    rw [hst]
    simp [hrate]

theorem getDesiredTpsTagOp_rate_zero {s : GlobalTagThrottlerState}
    {k : Knobs} {tag : TransactionTag} {stats : PerTagStatistics}
    (hst : lookupA s.tagStatistics tag = some stats)
    (hrate : stats.transactionCounter.smoothRate k = 0) (opType : OpType) :
    getDesiredTpsTagOp s k tag opType = none := by
  unfold getDesiredTpsTagOp
  rw [getAverageTransactionCostTag_rate_zero hst hrate opType]

theorem getDesiredTpsTag_rate_zero {s : GlobalTagThrottlerState}
    {k : Knobs} {tag : TransactionTag} {stats : PerTagStatistics}
    (hst : lookupA s.tagStatistics tag = some stats)
    (hrate : stats.transactionCounter.smoothRate k = 0) :
    getDesiredTpsTag s k tag = none := by
  unfold getDesiredTpsTag
  rw [getDesiredTpsTagOp_rate_zero hst hrate, getDesiredTpsTagOp_rate_zero hst hrate]

/-- C1: evaluation of the code at the failing input.  On storage server 0,
where tags "a" (total read quota 100) and "b" (total read quota 50) both
participate, the quota ratio the code computes for tag "a" is 50/150 = 1/3
— the LAST iterated tag's share — because the comparison at line 261 is
`tag.compare(tag) == 0` (the outer tag against itself, always true), while
the ratio the claim describes (own quota over the participating sum) is
100/150 = 2/3.  This contradicts the function's own comment ("returns the
ratio of total quota allocated to the specified tag"). -/
theorem quotaRatio_uses_last_tag :
    getQuotaRatio sQuotaRatio "a" 0 OpType.read = 1 / 3 ∧
      quotaRatioSpec sQuotaRatio "a" 0 OpType.read = 2 / 3 ∧
      getQuotaRatio sQuotaRatio "a" 0 OpType.read ≠
        quotaRatioSpec sQuotaRatio "a" 0 OpType.read := by
  norm_num +decide [getQuotaRatio, getQuotaRatioAcc, quotaRatioStep, quotaRatioSpec,
    getTagsAffectingStorageServer, getQuota, lookupA, sQuotaRatio,
    List.foldl_cons, List.foldl_nil]

/-- C2: evaluation of the code at the failing input.  Storage server 0 has
a published throttling ratio of 1/2 and a present current read cost of 100,
yet `getLimitingCost` returns absent: the guard at line 277 tests
`currentCost.present()` instead of `!currentCost.present()`, so every state
with both inputs present is rejected.  The product the claim describes is
1/2 · 100 = 50. -/
theorem limitingCost_absent_when_inputs_present :
    lookupA sLimitingCost.throttlingRatios 0 = some (some (1 / 2)) ∧
      getCurrentCostSS sLimitingCost 0 OpType.read = some 100 ∧
      getLimitingCost sLimitingCost 0 OpType.read = none ∧
      limitingCostSpec sLimitingCost 0 OpType.read = some 50 := by
  norm_num +decide [lookupA, sLimitingCost, getCurrentCostSS, getLimitingCost, limitingCostSpec,
    ThroughputCounters.getCost, Smoother.smoothTotal, List.foldl_cons, List.foldl_nil]

/-- C3: evaluation of the code at the failing input.  Starting from the
initial state, `set_quota("t", q)` then `remove_quota("t")` then one
reconcile cycle whose quota scan does not contain "t" leaves "t"'s per-tag
statistics record in the table (with its quota cleared), instead of
restoring the pre-insert state: the condition at line 379 consults
`tagStatistics` itself rather than `seenTags`, so `removeUnseenTags` never
erases anything. -/
theorem removeQuota_reconcile_retains_record :
    lookupA initState.tagStatistics "t" = none ∧
      lookupA (run ⟨1, 1⟩ initState
          [Command.setQuota "t" ⟨100, 0, 0, 0⟩, Command.removeQuota "t",
           Command.reconcile []]).tagStatistics "t" = some PerTagStatistics.init := by
  decide

/-- C4: counterexample.  The per-server aggregation loop of
`getLimitingTps(TransactionTag, OpType)` (lines 297-308) maps the
per-server values [present 5, absent] to absent — a later absent value is
NOT ignored but resets the accumulator — whereas the minimum over the
present values, as the claim states it, is 5. -/
theorem limitingFold_not_min_over_present :
    limitingFold [some 5, none] = none ∧
      minOverPresent [some 5, none] = some 5 ∧
      limitingFold [some 5, none] ≠ minOverPresent [some 5, none] := by
  decide

/-- C4 (amended): the per-op aggregate is a left fold over the servers in
`throttlingRatios` order in which an absent per-server value RESETS the
accumulator: the aggregate is absent iff the server list is empty or the
last per-server value is absent, and an absent value erases everything
accumulated before it (the aggregate of `vals ++ absent :: more` is the
aggregate of `more`).  Moreover, in the code as written every per-server
limiting TPS is itself absent (`getLimitingCost` never produces a value,
claim C2), so the state-level per-op aggregate is always absent; the
read/write combination (lines 310-320) is the minimum with an absent side
ignored, absent iff both sides are absent. -/
theorem limitingTps_aggregation_amended (vals more : List (Option ℚ))
    (s : GlobalTagThrottlerState) (k : Knobs) (tag : TransactionTag) (opType : OpType)
    (hnc : noCrash s = true) :
    (limitingFold vals = none ↔ vals = [] ∨ vals.getLast? = some none) ∧
      limitingFold (vals ++ none :: more) = limitingFold more ∧
      getLimitingTpsTagOp s k tag opType = none ∧
      getLimitingTpsTag s k tag =
        minOverPresent [getLimitingTpsTagOp s k tag OpType.read,
          getLimitingTpsTagOp s k tag OpType.write] := by
  refine ⟨limitingFold_eq_none_iff vals, limitingFold_reset vals more,
    getLimitingTpsTagOp_eq_none s k tag opType, ?_⟩
  rw [getLimitingTpsTag_eq_none, getLimitingTpsTagOp_eq_none, getLimitingTpsTagOp_eq_none]
  rfl

/-- C4 (witness for the amended theorem). -/
theorem limitingTps_aggregation_amended_witness :
    noCrash initState = true ∧
      limitingFold ([some 5] ++ none :: [some 7]) = limitingFold [some 7] :=
  ⟨by decide,
   (limitingTps_aggregation_amended [some 5] [some 7] initState ⟨1, 1⟩ "t"
      OpType.read (by decide)).2.1⟩

/-- C5: counterexample.  With MIN_RATE = 1, a transaction rate of 1, a zero
previous per-client smoothed total, limiting TPS = desired TPS = 20 and
reserved TPS = 10, the per-tag publish computation publishes TPS 1, which
is strictly below the reserved TPS 10 — the claimed lower bound
`reserved_tps ≤ published_tps` fails. -/
theorem published_below_reserved :
    (perTagPublish ⟨1, 1⟩ ⟨none, ⟨1, 0⟩, ⟨0, 0⟩⟩ (some 20) (some 20) (some 10)).1 =
        some ⟨1⟩ ∧
      ¬((10 : ℚ) ≤ (1 : ℚ)) := by
  norm_num [perTagPublish, PerTagStatistics.updateAndGetPerClientLimit,
    Smoother.smoothRate, Smoother.smoothTotal, Smoother.setTotal, Smoother.getTotal]

/-- C5 (amended): the sandwich holds for the TARGET, not for the published
per-client TPS: whenever the per-tag publish computation (target at line
433, per-client update at lines 130-141) publishes a value `p`,
`reserved ≤ target ≤ max(reserved, desired)` where
`target = max(reserved, min(limiting, desired))`, and `p` itself satisfies
`MIN_RATE ≤ p ≤ max(MIN_RATE, target)`. -/
theorem publish_bounds_amended (k : Knobs) (stats : PerTagStatistics)
    (limiting desired reserved : ℚ) (p : ClientTagThrottleLimits)
    (h : (perTagPublish k stats (some limiting) (some desired) (some reserved)).1 = some p) :
    reserved ≤ max reserved (min limiting desired) ∧
      max reserved (min limiting desired) ≤ max reserved desired ∧
      k.minRate ≤ p.tpsRate ∧
      p.tpsRate ≤ max k.minRate (max reserved (min limiting desired)) := by
  have h' : (stats.updateAndGetPerClientLimit k
      (some (max reserved (min limiting desired)))).1 = some p := h
  obtain ⟨hr, hp⟩ := updateAndGetPerClientLimit_eq_some h'
  refine ⟨le_max_left _ _, max_le_max le_rfl (min_le_right _ _), ?_, ?_⟩
  · rw [hp]
    exact le_max_left _ _
  · rw [hp]
    exact max_le_max le_rfl (min_le_left _ _)

/-- C5 (witness for the amended theorem). -/
theorem publish_bounds_amended_witness :
    (perTagPublish ⟨1, 1⟩ ⟨none, ⟨1, 0⟩, ⟨1, 1⟩⟩ (some 30) (some 20) (some 10)).1 =
        some ⟨20⟩ ∧
      ((10 : ℚ) ≤ max 10 (min 30 20) ∧
        max (10 : ℚ) (min 30 20) ≤ max 10 20 ∧
        (⟨1, 1⟩ : Knobs).minRate ≤ (⟨20⟩ : ClientTagThrottleLimits).tpsRate ∧
        (⟨20⟩ : ClientTagThrottleLimits).tpsRate ≤
          max (⟨1, 1⟩ : Knobs).minRate (max 10 (min 30 20))) :=
  ⟨by norm_num [perTagPublish, PerTagStatistics.updateAndGetPerClientLimit,
      Smoother.smoothRate, Smoother.smoothTotal, Smoother.setTotal, Smoother.getTotal],
   publish_bounds_amended ⟨1, 1⟩ ⟨none, ⟨1, 0⟩, ⟨1, 1⟩⟩ 30 20 10 ⟨20⟩
     (by norm_num [perTagPublish, PerTagStatistics.updateAndGetPerClientLimit,
        Smoother.smoothRate, Smoother.smoothTotal, Smoother.setTotal, Smoother.getTotal])⟩

/-- C6: all-or-nothing semantics of `getClientRates` (lines 423-440), in
states where no `getLimitingCost` evaluation aborts.  If some tracked tag's
limit is absent, the returned map is entirely empty; if no tracked tag's
limit is absent, the returned map has an entry for every tracked tag and
the BATCH and DEFAULT entry lists are identical; and a tracked tag with a
zero transaction rate has an absent desired TPS and hence an absent
limit. -/
theorem clientRates_all_or_nothing (s : GlobalTagThrottlerState) (k : Knobs)
    (hnc : noCrash s = true) :
    ((∃ tag ∈ trackedTags s, tagLimitMissing s k tag = true) →
        (getClientRates s k).1 = some emptyClientRates) ∧
      ((∀ tag ∈ trackedTags s, tagLimitMissing s k tag = false) →
        ∃ res, (getClientRates s k).1 = some res ∧
          res.batchRates = res.defaultRates ∧
          ∀ tag ∈ trackedTags s, (lookupA res.defaultRates tag).isSome = true) ∧
      (∀ tag stats, lookupA s.tagStatistics tag = some stats →
        stats.transactionCounter.smoothRate k = 0 →
        getDesiredTpsTag s k tag = none ∧ tagLimitMissing s k tag = true) := by
  refine ⟨?_, ?_, ?_⟩
  · intro _
    rw [getClientRates_eval]
  · intro hall
    refine ⟨emptyClientRates, by rw [getClientRates_eval], rfl, ?_⟩
    intro tag htag
    have hmiss := hall tag htag
    rw [tagLimitMissing, getLimitingTpsTag_eq_none] at hmiss
    simp at hmiss
  · intro tag stats hst hrate
    refine ⟨getDesiredTpsTag_rate_zero hst hrate, ?_⟩
    rw [tagLimitMissing, getLimitingTpsTag_eq_none]
    rfl

/-- C6 (witness). -/
theorem clientRates_all_or_nothing_witness :
    noCrash sOneTag = true ∧ (getClientRates sOneTag ⟨1, 1⟩).1 = some emptyClientRates :=
  ⟨by decide,
   (clientRates_all_or_nothing sOneTag ⟨1, 1⟩ (by decide)).1 ⟨"a", by decide, by decide⟩⟩

/-- C7: no division in the rate derivation divides by zero (for states with
non-negative quotas and no aborting `getLimitingCost` evaluation).  The
average-transaction-cost divisions run only under the `transactionRate ≠ 0`
guard, so both average costs are absent when the rate is zero; a zero
average cost makes the desired and reserved TPS absent before their
divisions; the `getQuotaRatio` division at line 269 runs only when the
loop's `tagQuota` is nonzero, in which case the summed divisor is strictly
positive (the `ASSERT_GT` at line 268 holds); the per-server limiting TPS
division at line 293 is never executed because `getLimitingCost` never
produces a present value; and the per-client division at line 135 runs only
under the `smoothRate > 0` guard. -/
theorem rate_derivation_div_safe (s : GlobalTagThrottlerState) (k : Knobs)
    (tag : TransactionTag) (storageServerId : UID) (opType : OpType)
    (hq : quotasNonneg s = true) (hnc : noCrash s = true) :
    (∀ stats, lookupA s.tagStatistics tag = some stats →
        stats.transactionCounter.smoothRate k = 0 →
        getAverageTransactionCostSSTag s k tag storageServerId opType = none ∧
          getAverageTransactionCostTag s k tag opType = none) ∧
      (getAverageTransactionCostTag s k tag opType = some 0 →
        getDesiredTpsTagOp s k tag opType = none ∧
          getReservedTpsTagOp s k tag opType = none) ∧
      ((getQuotaRatioAcc s tag storageServerId opType).2 ≠ 0 →
        0 < (getQuotaRatioAcc s tag storageServerId opType).1) ∧
      getLimitingCost s storageServerId opType = none ∧
      getLimitingTpsSSTag s k storageServerId tag opType = none ∧
      (∀ stats targetCost, stats.transactionCounter.smoothRate k ≤ 0 →
        (PerTagStatistics.updateAndGetPerClientLimit stats k targetCost).1 = none) := by
  refine ⟨?_, ?_, quotaRatioAcc_sum_pos hq tag storageServerId opType,
    getLimitingCost_eq_none s storageServerId opType,
    getLimitingTpsSSTag_eq_none s k storageServerId tag opType, ?_⟩
  · intro stats hst hrate
    exact ⟨getAverageTransactionCostSSTag_rate_zero hst hrate storageServerId opType,
      getAverageTransactionCostTag_rate_zero hst hrate opType⟩
  · intro havg
    constructor
    · unfold getDesiredTpsTagOp
      rw [havg]
      simp
    · unfold getReservedTpsTagOp
      rw [havg]
      cases getQuota s tag opType .reserved <;> simp
  · intro stats targetCost hle
    cases targetCost with
    | none => rfl
    | some tc =>
      unfold PerTagStatistics.updateAndGetPerClientLimit
      simp only [if_neg (not_lt.mpr hle)]

/-- C7 (witness). -/
theorem rate_derivation_div_safe_witness :
    quotasNonneg sQuotaRatio = true ∧ noCrash sQuotaRatio = true ∧
      getLimitingCost sQuotaRatio 0 OpType.read = none :=
  ⟨by decide, by decide,
   (rate_derivation_div_safe sQuotaRatio ⟨1, 1⟩ "a" 0 OpType.read
      (by decide) (by decide)).2.2.2.1⟩

/-- C8: whenever the per-tag publish computation publishes a limit, its TPS
equals `max(MIN_RATE, min(target, (target / tx_rate) · prev_smoothed))`
with `target = max(reserved, min(limiting, desired))` (line 433 and lines
130-141), and in particular it is at least MIN_RATE. -/
theorem per_client_limit_formula (k : Knobs) (stats : PerTagStatistics)
    (limiting desired reserved : ℚ) (p : ClientTagThrottleLimits)
    (h : (perTagPublish k stats (some limiting) (some desired) (some reserved)).1 = some p) :
    p.tpsRate = max k.minRate (min (max reserved (min limiting desired))
        (max reserved (min limiting desired) / stats.transactionCounter.smoothRate k *
          stats.perClientRate.smoothTotal)) ∧
      k.minRate ≤ p.tpsRate := by
  have h' : (stats.updateAndGetPerClientLimit k
      (some (max reserved (min limiting desired)))).1 = some p := h
  obtain ⟨hr, hp⟩ := updateAndGetPerClientLimit_eq_some h'
  refine ⟨hp, ?_⟩
  rw [hp]
  exact le_max_left _ _

/-- C8 (witness). -/
theorem per_client_limit_formula_witness :
    (perTagPublish ⟨1, 1⟩ ⟨none, ⟨2, 0⟩, ⟨0, 1 / 2⟩⟩ (some 30) (some 20) (some 10)).1 =
        some ⟨5⟩ ∧
      ((⟨5⟩ : ClientTagThrottleLimits).tpsRate =
          max (⟨1, 1⟩ : Knobs).minRate (min (max 10 (min 30 20))
            (max (10 : ℚ) (min 30 20) /
                (⟨none, ⟨2, 0⟩, ⟨0, 1 / 2⟩⟩ : PerTagStatistics).transactionCounter.smoothRate
                  ⟨1, 1⟩ *
              (⟨none, ⟨2, 0⟩, ⟨0, 1 / 2⟩⟩ : PerTagStatistics).perClientRate.smoothTotal)) ∧
        (⟨1, 1⟩ : Knobs).minRate ≤ (⟨5⟩ : ClientTagThrottleLimits).tpsRate) :=
  ⟨by norm_num [perTagPublish, PerTagStatistics.updateAndGetPerClientLimit,
      Smoother.smoothRate, Smoother.smoothTotal, Smoother.setTotal, Smoother.getTotal],
   per_client_limit_formula ⟨1, 1⟩ ⟨none, ⟨2, 0⟩, ⟨0, 1 / 2⟩⟩ 30 20 10 ⟨5⟩
     (by norm_num [perTagPublish, PerTagStatistics.updateAndGetPerClientLimit,
        Smoother.smoothRate, Smoother.smoothTotal, Smoother.setTotal, Smoother.getTotal])⟩

/-- C10: calling `removeQuota` on a tag with no statistics record inserts a
fresh default record (`operator[]` default-constructs), as does
`addRequests`: afterwards `autoThrottleCount` is one larger, the tag is
among the tags `getClientRates` iterates, and no later operation ever
removes it. -/
theorem removeQuota_inserts_record (k : Knobs) (s : GlobalTagThrottlerState)
    (tag : TransactionTag) (count : ℤ)
    (h : lookupA s.tagStatistics tag = none) :
    lookupA (step k s (Command.removeQuota tag)).tagStatistics tag =
        some PerTagStatistics.init ∧
      autoThrottleCount (step k s (Command.removeQuota tag)) = autoThrottleCount s + 1 ∧
      tag ∈ trackedTags (step k s (Command.removeQuota tag)) ∧
      (lookupA (step k s (Command.addRequests tag count)).tagStatistics tag).isSome = true ∧
      (∀ (s' : GlobalTagThrottlerState) (cmd : Command),
        tag ∈ trackedTags s' → tag ∈ trackedTags (step k s' cmd)) := by
  refine ⟨?_, length_updA_of_none h, mem_keys_of_lookupA (lookupA_updA_of_none h),
    ?_, fun s' cmd h' => mem_trackedTags_step k s' cmd h'⟩
  · rw [show (step k s (Command.removeQuota tag)).tagStatistics =
        updA s.tagStatistics tag PerTagStatistics.init
          (fun st => { st with quota := none }) from rfl]
    rw [lookupA_updA_of_none h]
    rfl
  · rw [show (step k s (Command.addRequests tag count)).tagStatistics =
        updA s.tagStatistics tag PerTagStatistics.init
          (fun st => { st with
            transactionCounter := st.transactionCounter.addDelta (count : ℚ) }) from rfl]
    rw [lookupA_updA_of_none h]
    rfl

/-- C10 (witness). -/
theorem removeQuota_inserts_record_witness :
    lookupA initState.tagStatistics "t" = none ∧
      lookupA (step ⟨1, 1⟩ initState (Command.removeQuota "t")).tagStatistics "t" =
        some PerTagStatistics.init :=
  ⟨by decide, (removeQuota_inserts_record ⟨1, 1⟩ initState "t" 1 (by decide)).1⟩

end GTT
